import Mathlib

/-!
Verification of the calibration "moving maximum" range estimator described in
the QuantizeML advanced tutorial (`plot_0_advanced_quantizeml.py`), together
with the calibration `steps` computation.

The tutorial gives the calibration algorithm in prose and pseudo-code:

  samples_max = reduce_max(samples)
  delta = previous_range_max - new_range_max * (1 - momentum)
  new_range_max = previous_range_max - delta

`range_max` is initialized with the maximum value of the first batch of
samples, per-axis or per-tensor, and the following batches update it with a
moving momentum strategy (momentum 0.9).

A batch is embedded as a `List (List ℚ)`: the outer index ranges over the
designated quantization axis (the channels), and each inner list holds all
the values of that channel across the batch and the remaining dimensions,
so that reducing along every dimension except the axis is a `map` of a
one-dimensional reduction, and reducing along all dimensions flattens first.
-/

/-- A sample batch, grouped by the designated axis: `batch.length` is the
size of the axis dimension and each inner list carries the values that the
non-axis dimensions contribute for that axis index. -/
abbrev Batch := List (List ℚ)

/-- Quantization scheme for an estimate: one shared scalar (per-tensor) or
one value per index of a designated axis (per-axis). -/
inductive QAxis
  | perTensor
  | perAxis
deriving DecidableEq

/-- A range estimate: a scalar for per-tensor schemes, a vector indexed by
the designated axis for per-axis schemes. -/
inductive RangeEstimate
  | scalar (v : ℚ)
  | vector (vs : List ℚ)
deriving DecidableEq

/-- `reduce_max` over one dimension, as in the pseudo-code line
`samples_max = reduce_max(samples)`: the plain maximum of the values.
The `[]` case is never reached from a non-empty batch. -/
def reduceMaxList (l : List ℚ) : ℚ :=
  match l with
  | [] => 0
  | x :: xs => xs.foldl max x

/-- `reduce_max(samples)` per-axis or per-tensor: the maximum value of the
batch along all dimensions except the axis (per-axis), or along all
dimensions (per-tensor). -/
def reduceMax (axis : QAxis) (batch : Batch) : RangeEstimate :=
  match axis with
  | .perTensor => .scalar (reduceMaxList batch.flatten)
  | .perAxis => .vector (batch.map reduceMaxList)

/-- The update formula exactly as the spec sentence parenthesizes it:
`delta = previous_estimate - batch_max * (1 - momentum)` followed by
`new_estimate = previous_estimate - delta`. -/
def literalDeltaUpdate (p b m : ℚ) : ℚ :=
  p - (p - b * (1 - m))

/-- The momentum form of the update:
`new_estimate = momentum * previous_estimate + (1 - momentum) * batch_max`. -/
def momentumUpdate (p b m : ℚ) : ℚ :=
  m * p + (1 - m) * b

/-- The moving-momentum update of `range_max`. The pseudo-code's delta line
is circular as written (it reads `new_range_max` before assigning it); the
reading under which the two lines implement the announced moving momentum
strategy is `delta = (previous_range_max - samples_max) * (1 - momentum)`,
subtracted from the previous estimate. -/
def fixedDeltaUpdate (p b m : ℚ) : ℚ :=
  p - (p - b) * (1 - m)

/-- Errors of the estimator.
Modelled from the spec: the tutorial sources describe only the numeric rule;
the estimator API surface (`InvalidStateError`, `ShapeMismatchError`) is
taken from the spec's failure semantics. -/
inductive CalibError
  | invalidState
  | shapeMismatch
deriving DecidableEq

/-- The range estimator: its quantization scheme and its current estimate,
`none` before initialization.
Modelled from the spec: the tutorial sources describe only the numeric rule;
the estimator object with its lifecycle is the spec's API surface. -/
structure RangeEstimator where
  axis : QAxis
  est : Option RangeEstimate
deriving DecidableEq

deriving instance DecidableEq for Except

/-- A freshly created, not yet initialized estimator. -/
def freshEstimator (axis : QAxis) : RangeEstimator :=
  ⟨axis, none⟩

/-- `initialize(first_batch, axis)`: `range_max` is initialized with the
maximum value of the first batch of samples, per-axis or per-tensor. -/
def initializeE (axis : QAxis) (batch : Batch) : RangeEstimator :=
  ⟨axis, some (reduceMax axis batch)⟩

/-- `update(batch, momentum)`: computes the batch maximum the same way as
`initializeE` and folds it into the stored estimate with the moving
momentum strategy.
Modelled from the spec: the error cases (`InvalidStateError` before
initialization, `ShapeMismatchError` when the batch's axis dimension
disagrees with the stored per-axis estimate) come from the spec's failure
semantics; the numeric rule is the tutorial's. -/
def updateE (m : ℚ) (batch : Batch) (st : RangeEstimator) :
    Except CalibError RangeEstimator :=
  match st.est with
  | none => .error .invalidState
  | some (.scalar p) =>
      .ok ⟨st.axis, some (.scalar (fixedDeltaUpdate p (reduceMaxList batch.flatten) m))⟩
  | some (.vector vs) =>
      if batch.length = vs.length then
        .ok ⟨st.axis, some (.vector
          (List.zipWith (fun p b => fixedDeltaUpdate p b m) vs (batch.map reduceMaxList)))⟩
      else
        .error .shapeMismatch

/-- `current()`: the current estimate, read-only. -/
def currentE (st : RangeEstimator) : Option RangeEstimate :=
  st.est

/-- Runs a sequence of updates, stopping at the first error: calibration is
a strictly sequential fold over batches, with no retries. -/
def runUpdates (m : ℚ) (st : RangeEstimator) : List Batch → Except CalibError RangeEstimator
  | [] => .ok st
  | b :: bs =>
      match updateE m b st with
      | .ok st' => runUpdates m st' bs
      | .error e => .error e

/-- The initial estimate as the spec's own words describe it: the maximum
ABSOLUTE value along all dimensions except the axis, or over all dimensions
when the axis is none. Kept separate from `reduceMax` (which transcribes
the tutorial's `reduce_max`, a plain maximum) so the two can be compared. -/
def specAbsMax (axis : QAxis) (batch : Batch) : RangeEstimate :=
  match axis with
  | .perTensor => .scalar (reduceMaxList (batch.flatten.map (fun x => |x|)))
  | .perAxis => .vector (batch.map (fun ch => reduceMaxList (ch.map (fun x => |x|))))

theorem foldl_max_eq_or_mem (l : List ℚ) : ∀ a : ℚ, l.foldl max a = a ∨ l.foldl max a ∈ l := by
  induction l with
  | nil => intro a; exact Or.inl rfl
  | cons x xs ih =>
      intro a
      rw [List.foldl_cons]
      rcases ih (max a x) with h | h
      · rw [h]
        rcases max_choice a x with hc | hc
        · exact Or.inl hc
        · rw [hc]; exact Or.inr (List.mem_cons_self x xs)
      · exact Or.inr (List.mem_cons_of_mem x h)

theorem le_foldl_max (l : List ℚ) : ∀ a : ℚ, a ≤ l.foldl max a := by
  induction l with
  | nil => intro a; exact le_refl a
  | cons x xs ih =>
      intro a
      rw [List.foldl_cons]
      exact le_trans (le_max_left a x) (ih (max a x))

theorem mem_le_foldl_max (l : List ℚ) : ∀ (a y : ℚ), y ∈ l → y ≤ l.foldl max a := by
  induction l with
  | nil => intro a y hy; cases hy
  | cons x xs ih =>
      intro a y hy
      rw [List.foldl_cons]
      rcases List.mem_cons.mp hy with h | h
      · rw [h]
        exact le_trans (le_max_right a x) (le_foldl_max xs (max a x))
      · exact ih (max a x) y h

/-- On a non-empty list, `reduceMaxList` returns an element of the list. -/
theorem reduceMaxList_mem (l : List ℚ) (h : l ≠ []) : reduceMaxList l ∈ l := by
  cases l with
  | nil => exact absurd rfl h
  | cons x xs =>
      simp only [reduceMaxList]
      rcases foldl_max_eq_or_mem xs x with h1 | h1
      · rw [h1]; exact List.mem_cons_self x xs
      · exact List.mem_cons_of_mem x h1

/-- `reduceMaxList` bounds every element of the list from above. -/
theorem le_reduceMaxList (l : List ℚ) (y : ℚ) (hy : y ∈ l) : y ≤ reduceMaxList l := by
  cases l with
  | nil => cases hy
  | cons x xs =>
      simp only [reduceMaxList]
      rcases List.mem_cons.mp hy with h | h
      · rw [h]
        exact le_foldl_max xs x
      · exact mem_le_foldl_max xs x y h

/-- C2 counterexample: on the per-tensor first batch `[[-5, 1]]` the code
initializes `range_max` to `reduce_max = 1`, which differs from the maximum
absolute value `5` the spec sentence asks for. -/
theorem c2_abs_counterexample :
    (initializeE .perTensor [[-5, 1]]).est ≠ some (specAbsMax .perTensor [[-5, 1]]) := by
  decide

/-- C2 (amended): for every momentum and batch sequence, the estimate right
after `initialize(first_batch, axis)` is the exact maximum VALUE (not the
maximum absolute value) of the first batch, reduced along all dimensions
except the axis (per-axis) or along all dimensions (per-tensor): it is an
element of the reduced-over values and an upper bound of them. -/
theorem c2_initialize_exact_max (batch : Batch) :
    (batch.flatten ≠ [] →
      (initializeE .perTensor batch).est = some (.scalar (reduceMaxList batch.flatten)) ∧
      reduceMaxList batch.flatten ∈ batch.flatten ∧
      ∀ x ∈ batch.flatten, x ≤ reduceMaxList batch.flatten)
    ∧ ((initializeE .perAxis batch).est = some (.vector (batch.map reduceMaxList)) ∧
      List.Forall₂ (fun ch w => ch ≠ [] → w ∈ ch ∧ ∀ x ∈ ch, x ≤ w)
        batch (batch.map reduceMaxList)) := by
  refine ⟨fun h => ⟨rfl, reduceMaxList_mem _ h, fun x hx => le_reduceMaxList _ x hx⟩, rfl, ?_⟩
  rw [List.forall₂_map_right_iff, List.forall₂_same]
  intro ch hch hne
  exact ⟨reduceMaxList_mem ch hne, fun x hx => le_reduceMaxList ch x hx⟩

/-- C2 witness: the per-tensor part of `c2_initialize_exact_max` applied to
the concrete batch `[[1, -2], [3]]`. -/
theorem c2_witness :
    ([[1, -2], [3]] : Batch).flatten ≠ [] ∧
    ((initializeE .perTensor [[1, -2], [3]]).est
        = some (.scalar (reduceMaxList ([[1, -2], [3]] : Batch).flatten)) ∧
      reduceMaxList ([[1, -2], [3]] : Batch).flatten ∈ ([[1, -2], [3]] : Batch).flatten ∧
      ∀ x ∈ ([[1, -2], [3]] : Batch).flatten,
        x ≤ reduceMaxList ([[1, -2], [3]] : Batch).flatten) :=
  ⟨by decide, (c2_initialize_exact_max [[1, -2], [3]]).1 (by decide)⟩

/-- C3: on the per-tensor batches `[[1,2,3]]` then `[[4,0,0]]` with
momentum `9/10`, `initialize` yields the estimate `3` and `update` yields
`31/10 = 9/10 * 3 + 1/10 * 4`. -/
theorem c3_scenario_per_tensor :
    (initializeE .perTensor [[1, 2, 3]]).est = some (.scalar 3) ∧
    updateE (9/10) [[4, 0, 0]] (initializeE .perTensor [[1, 2, 3]])
      = .ok ⟨.perTensor, some (.scalar (31/10))⟩ := by
  constructor
  · decide
  · simp only [updateE, initializeE, reduceMax, reduceMaxList]
    norm_num [fixedDeltaUpdate, max_def]

/-- Updating a value with its own batch maximum leaves it unchanged. -/
theorem zipWith_fixedDelta_self (m : ℚ) (vs : List ℚ) :
    List.zipWith (fun p b => fixedDeltaUpdate p b m) vs vs = vs := by
  induction vs with
  | nil => rfl
  | cons v vs ih =>
      rw [List.zipWith_cons_cons, ih]
      simp only [fixedDeltaUpdate, sub_self, zero_mul, sub_zero]

/-- The estimate produced by `initializeE` is a fixpoint of `updateE` on the
same batch. -/
theorem updateE_initializeE_self (m : ℚ) (axis : QAxis) (batch : Batch) :
    updateE m batch (initializeE axis batch) = .ok (initializeE axis batch) := by
  cases axis with
  | perTensor =>
      simp only [updateE, initializeE, reduceMax, fixedDeltaUpdate, sub_self, zero_mul, sub_zero]
  | perAxis =>
      simp only [updateE, initializeE, reduceMax]
      rw [if_pos (List.length_map batch reduceMaxList).symm]
      rw [zipWith_fixedDelta_self]

/-- A run of updates from a scalar estimate that ends successfully ends in a
scalar estimate with the same axis mode. -/
theorem runUpdates_scalar (m : ℚ) (batches : List Batch) :
    ∀ (axis : QAxis) (v : ℚ) (st' : RangeEstimator),
      runUpdates m ⟨axis, some (.scalar v)⟩ batches = .ok st' →
      ∃ v', st' = ⟨axis, some (.scalar v')⟩ := by
  induction batches with
  | nil =>
      intro axis v st' h
      simp only [runUpdates] at h
      exact ⟨v, (Except.ok.inj h).symm⟩
  | cons b bs ih =>
      intro axis v st' h
      simp only [runUpdates, updateE] at h
      exact ih axis _ st' h

/-- A run of updates from a vector estimate that ends successfully ends in a
vector estimate of the same length and axis mode. -/
theorem runUpdates_vector (m : ℚ) (batches : List Batch) :
    ∀ (axis : QAxis) (vs : List ℚ) (st' : RangeEstimator),
      runUpdates m ⟨axis, some (.vector vs)⟩ batches = .ok st' →
      ∃ vs', st' = ⟨axis, some (.vector vs')⟩ ∧ vs'.length = vs.length := by
  induction batches with
  | nil =>
      intro axis vs st' h
      simp only [runUpdates] at h
      exact ⟨vs, (Except.ok.inj h).symm, rfl⟩
  | cons b bs ih =>
      intro axis vs st' h
      by_cases hlen : b.length = vs.length
      · have hstep : updateE m b ⟨axis, some (.vector vs)⟩
            = .ok ⟨axis, some (.vector
              (List.zipWith (fun p bb => fixedDeltaUpdate p bb m) vs (b.map reduceMaxList)))⟩ := by
          simp only [updateE]
          rw [if_pos hlen]
        simp only [runUpdates, hstep] at h
        obtain ⟨vs', hst, hl⟩ := ih axis _ st' h
        refine ⟨vs', hst, ?_⟩
        rw [hl, List.length_zipWith, List.length_map, hlen, min_self]
      · have hstep : updateE m b ⟨axis, some (.vector vs)⟩ = .error .shapeMismatch := by
          simp only [updateE]
          rw [if_neg hlen]
        simp only [runUpdates, hstep] at h
        exact Except.noConfusion h

/-- C4: for momentum in `[0,1)` and a constant batch stream, the estimate
after `initialize` followed by any number of `update`s is unchanged: the
per-axis/per-tensor maximum of the constant batch is a fixpoint of the
update, so the estimate stays at it regardless of momentum. -/
theorem c4_constant_stream (m : ℚ) (h0 : 0 ≤ m) (h1 : m < 1)
    (axis : QAxis) (batch : Batch) (k : ℕ) :
    runUpdates m (initializeE axis batch) (List.replicate k batch)
      = .ok (initializeE axis batch) ∧
    (initializeE axis batch).est = some (reduceMax axis batch) := by
  refine ⟨?_, rfl⟩
  induction k with
  | zero => rfl
  | succ n ih =>
      rw [List.replicate_succ]
      simp only [runUpdates, updateE_initializeE_self]
      exact ih

/-- C4 witness: `c4_constant_stream` at momentum `9/10` on the constant
per-tensor stream of batch `[[1, 2]]`, three updates. -/
theorem c4_witness :
    (0 : ℚ) ≤ 9/10 ∧ (9/10 : ℚ) < 1 ∧
    (runUpdates (9/10) (initializeE .perTensor [[1, 2]]) (List.replicate 3 [[1, 2]])
        = .ok (initializeE .perTensor [[1, 2]]) ∧
      (initializeE .perTensor [[1, 2]]).est = some (reduceMax .perTensor [[1, 2]])) :=
  ⟨by norm_num, by norm_num,
    c4_constant_stream (9/10) (by norm_num) (by norm_num) .perTensor [[1, 2]] 3⟩

/-- C6: calling `update` on an estimator on which `initialize` has not been
called fails with `InvalidStateError`, whatever the batch and momentum, and
the failure is fatal: the whole calibration run stops with that error. -/
theorem c6_update_before_initialize (m : ℚ) (axis : QAxis) (batch : Batch) (rest : List Batch) :
    updateE m batch (freshEstimator axis) = .error .invalidState ∧
    runUpdates m (freshEstimator axis) (batch :: rest) = .error .invalidState :=
  ⟨rfl, rfl⟩

/-- C7: on an initialized per-axis estimator, an `update` whose batch axis
dimension differs from the stored estimate's shape fails with
`ShapeMismatchError`, and the failure is fatal: the run stops there. -/
theorem c7_shape_mismatch (m : ℚ) (axis : QAxis) (vs : List ℚ) (batch : Batch)
    (rest : List Batch) (h : batch.length ≠ vs.length) :
    updateE m batch ⟨axis, some (.vector vs)⟩ = .error .shapeMismatch ∧
    runUpdates m ⟨axis, some (.vector vs)⟩ (batch :: rest) = .error .shapeMismatch := by
  have h1 : updateE m batch ⟨axis, some (.vector vs)⟩ = .error .shapeMismatch := by
    simp only [updateE]
    rw [if_neg h]
  refine ⟨h1, ?_⟩
  simp only [runUpdates, h1]

/-- C7 witness: a two-channel batch against a one-entry stored estimate. -/
theorem c7_witness :
    ([[1], [2]] : Batch).length ≠ ([5] : List ℚ).length ∧
    (updateE (9/10) [[1], [2]] ⟨.perTensor, some (.vector [5])⟩ = .error .shapeMismatch ∧
      runUpdates (9/10) ⟨.perTensor, some (.vector [5])⟩ [[[1], [2]]]
        = .error .shapeMismatch) :=
  ⟨by decide, c7_shape_mismatch (9/10) .perTensor [5] [[1], [2]] [] (by decide)⟩

/-- C8: after `initialize` and after every successful run of `update`s, a
per-axis estimate is a vector whose length is the designated axis dimension
of the first batch, and a per-tensor estimate is a scalar. -/
theorem c8_shape_invariant (m : ℚ) (batch0 : Batch) (batches : List Batch) :
    (∀ st', runUpdates m (initializeE .perAxis batch0) batches = .ok st' →
      ∃ vs, st'.est = some (.vector vs) ∧ vs.length = batch0.length) ∧
    (∀ st', runUpdates m (initializeE .perTensor batch0) batches = .ok st' →
      ∃ v, st'.est = some (.scalar v)) := by
  constructor
  · intro st' h
    obtain ⟨vs', hst, hl⟩ := runUpdates_vector m batches .perAxis (batch0.map reduceMaxList) st' h
    exact ⟨vs', by rw [hst], by rw [hl, List.length_map]⟩
  · intro st' h
    obtain ⟨v', hst⟩ := runUpdates_scalar m batches .perTensor (reduceMaxList batch0.flatten) st' h
    exact ⟨v', by rw [hst]⟩

/-- C8 witness: one successful per-axis update of a two-channel estimate. -/
theorem c8_witness :
    ∃ vs,
      (RangeEstimator.mk QAxis.perAxis (some (RangeEstimate.vector
        (List.zipWith (fun p b => fixedDeltaUpdate p b (9/10))
          (([[1], [2]] : Batch).map reduceMaxList)
          (([[3], [4]] : Batch).map reduceMaxList))))).est
        = some (RangeEstimate.vector vs) ∧
      vs.length = ([[1], [2]] : Batch).length :=
  (c8_shape_invariant (9/10) [[1], [2]] [[[3], [4]]]).1
    ⟨QAxis.perAxis, some (RangeEstimate.vector
      (List.zipWith (fun p b => fixedDeltaUpdate p b (9/10))
        (([[1], [2]] : Batch).map reduceMaxList)
        (([[3], [4]] : Batch).map reduceMaxList)))⟩ rfl

/-- C10: for momentum in `[0,1)` and a fixed previous estimate, the update
is monotone non-decreasing in the batch maximum. -/
theorem c10_update_monotone (m p b1 b2 : ℚ) (h0 : 0 ≤ m) (h1 : m < 1) (hb : b1 ≤ b2) :
    fixedDeltaUpdate p b1 m ≤ fixedDeltaUpdate p b2 m := by
  simp only [fixedDeltaUpdate]
  have hm : 0 ≤ 1 - m := by linarith
  have hmul := mul_le_mul_of_nonneg_right (sub_le_sub_left hb p) hm
  linarith

/-- C10 witness: momentum `9/10`, previous estimate `3`, batch maxima `1 ≤ 4`. -/
theorem c10_witness :
    (0 : ℚ) ≤ 9/10 ∧ (9/10 : ℚ) < 1 ∧ (1 : ℚ) ≤ 4 ∧
    fixedDeltaUpdate 3 1 (9/10) ≤ fixedDeltaUpdate 3 4 (9/10) :=
  ⟨by norm_num, by norm_num, by norm_num,
    c10_update_monotone (9/10) 3 1 4 (by norm_num) (by norm_num) (by norm_num)⟩

/-- The number of calibration steps, from the tutorial:
`steps = num_samples` when `batch_size` is `None`, else
`steps = np.ceil(num_samples / batch_size)`, here as the natural-number
ceiling division. -/
def calibrationSteps (num_samples : ℕ) (batch_size : Option ℕ) : ℕ :=
  match batch_size with
  | none => num_samples
  | some b => (num_samples + b - 1) / b

/-- C5: with a positive batch size the driver computes
`steps = ceil(num_samples / batch_size)`, without one it computes
`steps = num_samples`; in particular `num_samples = 1024, batch_size = 100`
gives `steps = 11`. -/
theorem c5_steps_ceil (n b : ℕ) (hb : 0 < b) :
    ((calibrationSteps n (some b) : ℤ) = ⌈(n : ℚ) / (b : ℚ)⌉) ∧
    calibrationSteps n none = n ∧
    calibrationSteps 1024 (some 100) = 11 := by
  refine ⟨?_, rfl, by norm_num [calibrationSteps]⟩
  have hbQ : (0 : ℚ) < (b : ℚ) := by exact_mod_cast hb
  have key := Nat.div_add_mod (n + b - 1) b
  have hr := Nat.mod_lt (n + b - 1) hb
  obtain ⟨q, hq⟩ : ∃ q, (n + b - 1) / b = q := ⟨_, rfl⟩
  obtain ⟨r, hrr⟩ : ∃ r, (n + b - 1) % b = r := ⟨_, rfl⟩
  rw [hq, hrr] at key
  rw [hrr] at hr
  obtain ⟨P, hP⟩ : ∃ P, b * q = P := ⟨_, rfl⟩
  rw [hP] at key
  have h1 : n ≤ P := by omega
  have h2 : P < n + b := by omega
  rw [← hP] at h1 h2
  have h1Q : (n : ℚ) ≤ (b : ℚ) * (q : ℚ) := by exact_mod_cast h1
  have h2Q : (b : ℚ) * (q : ℚ) < (n : ℚ) + (b : ℚ) := by exact_mod_cast h2
  simp only [calibrationSteps, hq]
  rw [eq_comm, Int.ceil_eq_iff]
  push_cast
  constructor
  · rw [lt_div_iff₀ hbQ]
    linarith
  · rw [div_le_iff₀ hbQ]
    linarith

/-- C5 witness: `c5_steps_ceil` at `num_samples = 1024`, `batch_size = 100`. -/
theorem c5_witness :
    0 < 100 ∧
    (((calibrationSteps 1024 (some 100) : ℤ) = ⌈(1024 : ℚ) / (100 : ℚ)⌉) ∧
      calibrationSteps 1024 none = 1024 ∧
      calibrationSteps 1024 (some 100) = 11) :=
  ⟨by decide, c5_steps_ceil 1024 100 (by decide)⟩

/-- An operation performed by the calibration driver on the estimator. -/
inductive CalibOp
  | init
  | upd
deriving DecidableEq

/-- One calibration pass of the driver over a list of batches.
Modelled from the spec: the tutorial only states that `range_max` is
initialized on the first batch and updated on the following ones; the
explicit loop calling `initialize` on the very first batch overall and
`update` otherwise, stopping at the first error, is the spec's driver.
Returns the outcome together with the trace of operations performed. -/
def calibFold (m : ℚ) (st : RangeEstimator) :
    List Batch → Except CalibError RangeEstimator × List CalibOp
  | [] => (.ok st, [])
  | b :: bs =>
      match st.est with
      | none =>
          ((calibFold m (initializeE st.axis b) bs).1,
            CalibOp.init :: (calibFold m (initializeE st.axis b) bs).2)
      | some _ =>
          match updateE m b st with
          | .ok st2 =>
              ((calibFold m st2 bs).1, CalibOp.upd :: (calibFold m st2 bs).2)
          | .error e => (.error e, [CalibOp.upd])

/-- The batches a calibration run draws: `epochs × steps` consecutive draws
from the cyclic sample stream. -/
def driverBatches (stream : ℕ → Batch) (epochs steps : ℕ) : List Batch :=
  (List.range (epochs * steps)).map stream

theorem calibFold_nil (m : ℚ) (st : RangeEstimator) : calibFold m st [] = (.ok st, []) := rfl

theorem calibFold_cons_none (m : ℚ) (st : RangeEstimator) (b : Batch) (bs : List Batch)
    (h : st.est = none) :
    calibFold m st (b :: bs)
      = ((calibFold m (initializeE st.axis b) bs).1,
          CalibOp.init :: (calibFold m (initializeE st.axis b) bs).2) := by
  simp only [calibFold, h]

theorem calibFold_cons_ok (m : ℚ) (st : RangeEstimator) (b : Batch) (bs : List Batch)
    (st2 : RangeEstimator) (e : RangeEstimate) (h : st.est = some e)
    (hupd : updateE m b st = .ok st2) :
    calibFold m st (b :: bs)
      = ((calibFold m st2 bs).1, CalibOp.upd :: (calibFold m st2 bs).2) := by
  simp only [calibFold, h, hupd]

theorem calibFold_cons_err (m : ℚ) (st : RangeEstimator) (b : Batch) (bs : List Batch)
    (e2 : CalibError) (e : RangeEstimate) (h : st.est = some e)
    (hupd : updateE m b st = .error e2) :
    calibFold m st (b :: bs) = (.error e2, [CalibOp.upd]) := by
  simp only [calibFold, h, hupd]

/-- A successful `updateE` leaves the estimator initialized. -/
theorem updateE_ok_isSome (m : ℚ) (b : Batch) (st st2 : RangeEstimator)
    (h : updateE m b st = .ok st2) : st2.est.isSome := by
  cases hst : st.est with
  | none =>
      simp only [updateE, hst] at h
      exact Except.noConfusion h
  | some e =>
      cases e with
      | scalar p =>
          simp only [updateE, hst] at h
          rw [← Except.ok.inj h]
          rfl
      | vector vs =>
          by_cases hlen : b.length = vs.length
          · simp only [updateE, hst] at h
            rw [if_pos hlen] at h
            rw [← Except.ok.inj h]
            rfl
          · simp only [updateE, hst] at h
            rw [if_neg hlen] at h
            exact Except.noConfusion h

/-- From an initialized estimator, a successful calibration pass performs
no initialization and one update per batch. -/
theorem calibFold_initialized (m : ℚ) (batches : List Batch) :
    ∀ (st : RangeEstimator), st.est.isSome →
      ∀ (st' : RangeEstimator) (ops : List CalibOp),
        calibFold m st batches = (.ok st', ops) →
        ops.count CalibOp.init = 0 ∧ ops.count CalibOp.upd = batches.length := by
  induction batches with
  | nil =>
      intro st hs st' ops h
      rw [calibFold_nil, Prod.mk.injEq] at h
      rw [← h.2]
      exact ⟨rfl, rfl⟩
  | cons b bs ih =>
      intro st hs st' ops h
      obtain ⟨e, he⟩ := Option.isSome_iff_exists.mp hs
      cases hupd : updateE m b st with
      | error e2 =>
          rw [calibFold_cons_err m st b bs e2 e he hupd, Prod.mk.injEq] at h
          exact Except.noConfusion h.1
      | ok st2 =>
          rw [calibFold_cons_ok m st b bs st2 e he hupd, Prod.mk.injEq] at h
          obtain ⟨h1, h2⟩ := h
          have hs2 := updateE_ok_isSome m b st st2 hupd
          have hrec := ih st2 hs2 st' (calibFold m st2 bs).2 (by rw [← h1])
          rw [← h2]
          refine ⟨?_, ?_⟩
          · rw [List.count_cons]
            simp [hrec.1]
          · rw [List.count_cons]
            simp [hrec.2]

/-- C9 (amended): for `epochs, steps ≥ 1`, a successful calibration run
over the `epochs × steps` drawn batches calls `initialize` exactly once, on
the very first batch, and performs `epochs × steps - 1` updates, one per
subsequent batch; the estimate is never re-initialized. -/
theorem c9_driver_schedule (m : ℚ) (stream : ℕ → Batch) (epochs steps : ℕ)
    (he : 1 ≤ epochs) (hs : 1 ≤ steps) (axis : QAxis)
    (st' : RangeEstimator) (ops : List CalibOp)
    (h : calibFold m (freshEstimator axis) (driverBatches stream epochs steps) = (.ok st', ops)) :
    ops.head? = some CalibOp.init ∧
    ops.count CalibOp.init = 1 ∧
    ops.count CalibOp.upd = epochs * steps - 1 := by
  have hlen : (driverBatches stream epochs steps).length = epochs * steps := by
    simp [driverBatches]
  have hpos : 0 < epochs * steps := Nat.mul_pos he hs
  cases hdb : driverBatches stream epochs steps with
  | nil =>
      rw [hdb] at hlen
      simp only [List.length_nil] at hlen
      omega
  | cons b bs =>
      rw [hdb] at h hlen
      rw [calibFold_cons_none m (freshEstimator axis) b bs rfl, Prod.mk.injEq] at h
      obtain ⟨h1, h2⟩ := h
      have hsome : (initializeE (freshEstimator axis).axis b).est.isSome := rfl
      have hrec := calibFold_initialized m bs (initializeE (freshEstimator axis).axis b) hsome
        st' (calibFold m (initializeE (freshEstimator axis).axis b) bs).2 (by rw [← h1])
      rw [← h2]
      refine ⟨rfl, ?_, ?_⟩
      · rw [List.count_cons]
        simp [hrec.1]
      · rw [List.count_cons]
        simp only [List.length_cons] at hlen
        simp [hrec.2]
        omega

/-- C9 counterexample: with `epochs = 1`, `steps = 2` a successful run
performs a single update (the first of the two batches is consumed by
`initialize`), not `epochs × steps = 2` updates as the claim counts. -/
theorem c9_updates_counterexample :
    ((calibFold 0 (freshEstimator .perTensor) (driverBatches (fun _ => [[1]]) 1 2)).2).count
      CalibOp.upd ≠ 1 * 2 := by
  decide

/-- C9 witness: `c9_driver_schedule` on the concrete run with `epochs = 1`,
`steps = 2` over the constant stream of batch `[[1]]`. -/
theorem c9_witness :
    [CalibOp.init, CalibOp.upd].head? = some CalibOp.init ∧
    [CalibOp.init, CalibOp.upd].count CalibOp.init = 1 ∧
    [CalibOp.init, CalibOp.upd].count CalibOp.upd = 1 * 2 - 1 :=
  c9_driver_schedule 0 (fun _ => [[1]]) 1 2 (by decide) (by decide) .perTensor
    ⟨.perTensor, some (.scalar (fixedDeltaUpdate (reduceMaxList ([[1]] : Batch).flatten)
      (reduceMaxList ([[1]] : Batch).flatten) 0))⟩
    [CalibOp.init, CalibOp.upd] (by rfl)

/-- C1 counterexample: at `previous_estimate = 3`, `batch_max = 4`,
`momentum = 9/10` the literal parenthesization gives `2/5` while the
momentum form gives `31/10`, so the two formulas the spec declares
equivalent are not equal as functions. -/
theorem c1_literal_counterexample :
    literalDeltaUpdate 3 4 (9/10) ≠ momentumUpdate 3 4 (9/10) := by
  simp only [literalDeltaUpdate, momentumUpdate]
  norm_num

/-- C1 (amended): with the delta computed as
`(previous_estimate - batch_max) * (1 - momentum)`, the update
`new_estimate = previous_estimate - delta` coincides with the momentum form
`momentum * previous_estimate + (1 - momentum) * batch_max` for every
previous estimate, batch maximum and momentum. -/
theorem c1_delta_momentum_equiv (p b m : ℚ) :
    fixedDeltaUpdate p b m = momentumUpdate p b m := by
  simp only [fixedDeltaUpdate, momentumUpdate]
  ring
